import Mathlib

/-!
Verification development for the langchain-demo repository.

This file gives a shallow embedding, in Lean, of the repository's feedback
subsystem (rating parser, score conversion, feedback submission), its
file-based stores (conversation store, auth store) and the CLI feedback
state machine, together with theorems checking the repository's
specification sentences against the embedded code.

The JavaScript string routines are modelled on `List Char`; the four
regular expressions used by `FeedbackService.parseUserFeedback` are
embedded by a small backtracking regular-expression interpreter whose
result list enumerates the match candidates in exactly the order a
JavaScript regex engine explores them (greedy quantifiers first,
left alternative first), so that picking the first candidate that
reaches the end anchor reproduces `String.prototype.match`.
-/

namespace LangchainDemo

/-! ### JavaScript character classes

`jsSpace` is ECMAScript `\s` (WhiteSpace ∪ LineTerminator), which is also
the character set removed by `String.prototype.trim`.  `dotCh` is the
regex `.` without the `s` flag (anything but a line terminator).
`dashCh` is the character class `[-–]` used by the feedback patterns. -/

def jsSpace (c : Char) : Bool :=
  c == ' ' || c == '\t' || c == '\n' || c == '\r' ||
  c.toNat == 11 || c.toNat == 12 || c.toNat == 0xa0 || c.toNat == 0x1680 ||
  (0x2000 ≤ c.toNat && c.toNat ≤ 0x200a) || c.toNat == 0x2028 || c.toNat == 0x2029 ||
  c.toNat == 0x202f || c.toNat == 0x205f || c.toNat == 0x3000 || c.toNat == 0xfeff

def dotCh (c : Char) : Bool :=
  !(c == '\n' || c == '\r' || c.toNat == 0x2028 || c.toNat == 0x2029)

def dashCh (c : Char) : Bool :=
  c == '-' || c == '–'

def slashOrSpace (c : Char) : Bool :=
  c == '/' || jsSpace c

/-- `String.prototype.trim`: strip `jsSpace` characters from both ends. -/
def jsTrim (l : List Char) : List Char :=
  (((l.dropWhile jsSpace).reverse).dropWhile jsSpace).reverse

/-! ### Backtracking regular-expression interpreter -/

/-- Regular expressions, restricted to the constructs used by the four
feedback patterns.  Quantifiers are only applied to single-character
classes (as in the source patterns), which keeps the interpreter
structurally recursive. -/
inductive Rx where
  /-- empty pattern -/
  | eps : Rx
  /-- one character of a class (`\d`, `[-–]`, `.`, ...) -/
  | cls (p : Char → Bool) : Rx
  /-- case-insensitive literal (stored lower-case) -/
  | istr (lit : List Char) : Rx
  /-- concatenation -/
  | seq (a b : Rx) : Rx
  /-- alternation, left alternative tried first -/
  | alt (a b : Rx) : Rx
  /-- greedy `?` -/
  | opt (r : Rx) : Rx
  /-- greedy `*` over a character class -/
  | starCls (p : Char → Bool) : Rx
  /-- greedy `+` over a character class -/
  | plusCls (p : Char → Bool) : Rx
  /-- numbered capture group -/
  | grp (i : Nat) (r : Rx) : Rx

/-- Captured groups of one match candidate: group index paired with the
captured characters. -/
abbrev Caps : Type := List (Nat × List Char)

/-- All ways a greedy `class*` can split the input, longest match first:
`(consumed, rest)` pairs. -/
def starSplits (p : Char → Bool) : List Char → List (List Char × List Char)
  | [] => [([], [])]
  | c :: cs =>
    if p c then
      ((starSplits p cs).map (fun t => (c :: t.1, t.2))) ++ [([], c :: cs)]
    else
      [([], c :: cs)]

/-- All ways a greedy `class+` can split the input, longest match first. -/
def plusSplits (p : Char → Bool) : List Char → List (List Char × List Char)
  | [] => []
  | c :: cs =>
    if p c then (starSplits p cs).map (fun t => (c :: t.1, t.2)) else []

/-- Run a regex against an input: the list of all match candidates
`(consumed, captures, rest)` in backtracking order.  The head of the
list is the candidate a JavaScript engine commits to first. -/
def Rx.run : Rx → List Char → List (List Char × Caps × List Char)
  | .eps, s => [([], [], s)]
  | .cls p, s =>
    match s with
    | [] => []
    | c :: cs => if p c then [([c], [], cs)] else []
  | .istr lit, s =>
    if (s.take lit.length).map Char.toLower = lit then
      [(s.take lit.length, [], s.drop lit.length)]
    else []
  | .seq a b, s =>
    (a.run s).flatMap fun t1 =>
      (b.run t1.2.2).map fun t2 => (t1.1 ++ t2.1, t1.2.1 ++ t2.2.1, t2.2.2)
  | .alt a b, s => a.run s ++ b.run s
  | .opt r, s => r.run s ++ [([], [], s)]
  | .starCls p, s => (starSplits p s).map fun t => (t.1, [], t.2)
  | .plusCls p, s => (plusSplits p s).map fun t => (t.1, [], t.2)
  | .grp i r, s => (r.run s).map fun t => (t.1, t.2.1 ++ [(i, t.1)], t.2.2)

/-- Syntactic test: the regex contains no capture group. -/
def capFree : Rx → Bool
  | .eps => true
  | .cls _ => true
  | .istr _ => true
  | .seq a b => capFree a && capFree b
  | .alt a b => capFree a && capFree b
  | .opt r => capFree r
  | .starCls _ => true
  | .plusCls _ => true
  | .grp _ _ => false

/-- Look up the first entry recorded for group `i`. -/
def capOf (g : Caps) (i : Nat) : Option (List Char) :=
  (List.find? (fun p => p.1 == i) g).map (fun p => p.2)

/-- A regex anchored as `^...$`: first backtracking candidate that
consumes the whole input. -/
def fullMatch (rx : Rx) (s : List Char) : Option Caps :=
  ((rx.run s).find? (fun t => t.2.2.isEmpty)).map (fun t => t.2.1)

/-- A regex with no `^` anchor but a `$` anchor, as used by
`String.prototype.match`: leftmost starting position wins. -/
def searchMatch (rx : Rx) : List Char → Option Caps
  | [] => fullMatch rx []
  | c :: cs => (fullMatch rx (c :: cs)).orElse (fun _ => searchMatch rx cs)

/-! ### `FeedbackService.parseUserFeedback`

The four patterns of the source, in source order:
1. `/^(\d)[\/\s]*(?:stars?|\/5)?(?:\s*[-–]\s*(.+))?$/i`
2. `/(?:rating|score):\s*(\d)(?:\s*[-–]\s*(.+))?$/i`
3. `/^(\d)\s*[-–]\s*(.+)$/`
4. `/^(\d)$/`
-/

/-- The shared optional trailing-comment group `(?:\s*[-–]\s*(.+))?`,
capturing the comment as group 2. -/
def commentGrp : Rx :=
  .opt (.seq (.starCls jsSpace)
    (.seq (.cls dashCh) (.seq (.starCls jsSpace) (.grp 2 (.plusCls dotCh)))))

/-- `(?:stars?|\/5)` -/
def starsAlt : Rx :=
  .alt (.seq (.istr ['s', 't', 'a', 'r']) (.opt (.cls (fun c => c.toLower == 's'))))
    (.istr ['/', '5'])

/-- Pattern 1: `^(\d)[\/\s]*(?:stars?|\/5)?(?:\s*[-–]\s*(.+))?$` (i-flag). -/
def pattern1 : Rx :=
  .seq (.grp 1 (.cls Char.isDigit))
    (.seq (.starCls slashOrSpace) (.seq (.opt starsAlt) commentGrp))

/-- Pattern 2: `(?:rating|score):\s*(\d)(?:\s*[-–]\s*(.+))?$` (i-flag,
no `^` anchor). -/
def pattern2 : Rx :=
  .seq (.alt (.istr ['r', 'a', 't', 'i', 'n', 'g']) (.istr ['s', 'c', 'o', 'r', 'e']))
    (.seq (.istr [':'])
      (.seq (.starCls jsSpace) (.seq (.grp 1 (.cls Char.isDigit)) commentGrp)))

/-- Pattern 3: `^(\d)\s*[-–]\s*(.+)$`. -/
def pattern3 : Rx :=
  .seq (.grp 1 (.cls Char.isDigit))
    (.seq (.starCls jsSpace)
      (.seq (.cls dashCh) (.seq (.starCls jsSpace) (.grp 2 (.plusCls dotCh)))))

/-- Pattern 4: `^(\d)$`. -/
def pattern4 : Rx := .grp 1 (.cls Char.isDigit)

/-- `parseInt` of the single captured digit. -/
def digitVal (c : Char) : Nat := c.toNat - 48

/-- One step of the source's pattern cascade: if the pattern matched and
the captured rating is in range 1..5, answer `{rating, comment}`;
otherwise fall through to the next pattern. -/
def stepPattern (res : Option Caps) (next : Option (Nat × String)) :
    Option (Nat × String) :=
  match res with
  | some g =>
    match capOf g 1 with
    | some [c] =>
      let rating := digitVal c
      if 1 ≤ rating ∧ rating ≤ 5 then
        some (rating, String.mk ((capOf g 2).getD []))
      else next
    | _ => next
  | none => next

/-- `FeedbackService.parseUserFeedback`: trim the input, try the four
patterns in order, and answer `null` (here `none`) when no pattern
yields an in-range rating. -/
def parseUserFeedback (userInput : String) : Option (Nat × String) :=
  let input := jsTrim userInput.data
  stepPattern (fullMatch pattern1 input)
    (stepPattern (searchMatch pattern2 input)
      (stepPattern (fullMatch pattern3 input)
        (stepPattern (fullMatch pattern4 input) none)))

/-! ### Score conversion and star emoji -/

/-- `FeedbackService.convertStarRatingToScore`: convert a 1–5 star rating
to a 0–1 score.  The JavaScript arithmetic `(starRating - 1) / 4` is
modelled over `ℚ`; for the integer inputs 1..5 the double-precision
computation is exact, so the rational model is faithful. -/
def convertStarRatingToScore (starRating : ℚ) : ℚ :=
  (starRating - 1) / 4

/-- `FeedbackService.getStarEmoji`. -/
def getStarEmoji (starRating : Nat) : String :=
  String.mk (List.replicate starRating '⭐' ++ List.replicate (5 - starRating) '☆')

/-! ### Run-id resolution (`FeedbackService.getRunIdFromContext`) -/

/-- Hexadecimal digit, either case (the regex has the `i` flag). -/
def isHexChar (c : Char) : Bool :=
  ('0' ≤ c && c ≤ '9') || ('a' ≤ c && c ≤ 'f') || ('A' ≤ c && c ≤ 'F')

/-- The source's `uuidRegex`
`/^[0-9a-f]{8}-[0-9a-f]{4}-[1-5][0-9a-f]{3}-[89ab][0-9a-f]{3}-[0-9a-f]{12}$/i`,
embedded structurally: five dash-separated hex groups of lengths
8/4/4/4/12, the third starting with a version digit 1–5 and the fourth
with a variant character in `[89ab]` (either case). -/
def isValidUUID (s : String) : Bool :=
  match s.data.splitOn '-' with
  | [a, b, c, d, e] =>
    a.length == 8 && b.length == 4 && c.length == 4 && d.length == 4 &&
    e.length == 12 && a.all isHexChar && b.all isHexChar && e.all isHexChar &&
    (match c with
     | v :: rest => ('1' ≤ v && v ≤ '5') && rest.all isHexChar
     | [] => false) &&
    (match d with
     | w :: rest =>
       (w == '8' || w == '9' || w == 'a' || w == 'b' || w == 'A' || w == 'B') &&
       rest.all isHexChar
     | [] => false)
  | _ => false

/-- JavaScript truthiness for an optional string: `undefined`, `null`
and `""` are falsy. -/
def truthyStr (o : Option String) : Option String :=
  match o with
  | some "" => none
  | x => x

/-- `FeedbackService.getCurrentRunId`: the id of the active trace
context, provided it exists and has valid UUID format; otherwise `null`.
`traceCtx` stands for `getCurrentRunTree()?.id`. -/
def getCurrentRunId (traceCtx : Option String) : Option String :=
  match traceCtx with
  | some id => if isValidUUID id then some id else none
  | none => none

/-- `FeedbackService.getRunIdFromContext`: prefer the active trace
context; else a thread id that is itself a valid UUID; else a freshly
generated UUID (`fresh` stands for the random `generateUUID()` result of
whichever generation site fires). -/
def getRunIdFromContext (traceCtx : Option String) (threadId : Option String)
    (fresh : String) : String :=
  match getCurrentRunId traceCtx with
  | some runId => runId
  | none =>
    match truthyStr threadId with
    | some tid => if isValidUUID tid then tid else fresh
    | none => fresh

/-- The run-id resolution line of `FeedbackService.collectFeedback`:
`feedbackData.runId || await this.getRunIdFromContext(threadManager)`. -/
def resolveRunId (explicitRunId : Option String) (traceCtx : Option String)
    (threadId : Option String) (fresh : String) : String :=
  match truthyStr explicitRunId with
  | some r => r
  | none => getRunIdFromContext traceCtx threadId fresh

/-! ### Feedback submission (`FeedbackService.collectFeedback`) -/

/-- Behaviour of the configured LangSmith client's `createFeedback`
call: it either answers a feedback record id or throws. -/
inductive RemoteOutcome where
  | success (feedbackId : String) : RemoteOutcome
  | failure (errMsg : String) : RemoteOutcome
deriving DecidableEq, Repr

/-- Environment of one `collectFeedback` call: the configured client (if
any) together with its behaviour, the client that would result from the
lazy re-`initialize` attempt, the run id a retried call would resolve,
and the random suffix used for locally generated ids. -/
structure FeedbackEnv where
  client : Option RemoteOutcome
  reinitClient : Option RemoteOutcome
  retryRunId : String
  localIdSuffix : String
deriving DecidableEq, Repr

/-- The in-memory feedback record assembled by `collectFeedback`. -/
structure FeedbackRecord where
  starRating : ℤ
  score : ℚ
  comment : String
  key : String
  runId : String
deriving DecidableEq, Repr

/-- The value `collectFeedback` resolves with. -/
structure FeedbackResult where
  success : Bool
  submitted : Bool
  runId : Option String
  feedbackId : Option String
  localId : Option String
  errMsg : Option String
  feedback : FeedbackRecord
  message : String
deriving DecidableEq, Repr

/-- `local_${Date.now()}_${Math.random()...}`. -/
def localFeedbackId (suffix : String) : String :=
  "local_" ++ suffix

/-- `FeedbackService.collectFeedback`.  `allowRetry` is the recursion
fuel for the single soft retry the source performs after re-initializing
a missing client; the source recurses at most once because the retry
only happens when the re-initialization produced a client.  An
`Except.error` models the `throw` on an out-of-range rating. -/
def collectFeedback (env : FeedbackEnv) (allowRetry : Bool) (starRating : ℤ)
    (comment : String) (runId : String) : Except String FeedbackResult :=
  if ¬(1 ≤ starRating ∧ starRating ≤ 5) then
    .error "Star rating must be between 1 and 5"
  else
    let score := convertStarRatingToScore (starRating : ℚ)
    let feedback : FeedbackRecord :=
      { starRating := starRating, score := score, comment := comment,
        key := "user_rating", runId := runId }
    match env.client with
    | some outcome =>
      if runId == "" then
        -- client configured but run id falsy: store locally, no retry
        -- (the source's re-initialization block is guarded by `!this.langsmithClient`)
        .ok { success := true, submitted := false, runId := none,
              feedbackId := none, localId := some (localFeedbackId env.localIdSuffix),
              errMsg := none, feedback := feedback,
              message := "📝 Thank you! Your " ++ toString starRating ++
                "-star rating has been recorded locally (No run ID available)." }
      else
        match outcome with
        | .success fid =>
          .ok { success := true, submitted := true, runId := some runId,
                feedbackId := some fid, localId := none, errMsg := none,
                feedback := feedback,
                message := "✅ Thank you! Your " ++ toString starRating ++
                  "-star rating has been submitted to improve our AI system." }
        | .failure e =>
          .ok { success := true, submitted := false, runId := none,
                feedbackId := none, localId := some (localFeedbackId env.localIdSuffix),
                errMsg := some e, feedback := feedback,
                message := "📝 Your " ++ toString starRating ++
                  "-star rating has been recorded locally (LangSmith submission failed: " ++
                  e ++ ")." }
    | none =>
      -- client unconfigured: store locally, then retry exactly once if the
      -- lazy re-initialization produced a client and a run id is present
      if h : env.reinitClient.isSome ∧ runId ≠ "" ∧ allowRetry then
        collectFeedback { env with client := env.reinitClient } false starRating
          comment env.retryRunId
      else
        .ok { success := true, submitted := false, runId := none,
              feedbackId := none, localId := some (localFeedbackId env.localIdSuffix),
              errMsg := none, feedback := feedback,
              message := "📝 Thank you! Your " ++ toString starRating ++
                "-star rating has been recorded locally (LangSmith not initialized)." }
termination_by cond allowRetry 1 0
decreasing_by simp [h.2.2]

/-! ### Conversation store (`src/store/conversationStore.js`)

In-memory messages are `HumanMessage`/`AIMessage` instances; both carry
`content` and optionally `tool_calls` / `tool_call_id` fields.  Tool
calls are opaque payloads here (modelled as strings). -/

/-- Role of an in-memory message (`getMessageType` answers `"human"`
for `HumanMessage` and `"ai"` for `AIMessage` via `_getType`). -/
inductive MsgType where
  | human : MsgType
  | ai : MsgType
deriving DecidableEq, Repr

/-- An in-memory chat message. `tool_calls = none` models the field
being absent/undefined on the object. -/
structure Message where
  type : MsgType
  content : String
  tool_calls : Option (List String)
  tool_call_id : Option String
deriving DecidableEq, Repr

/-- `getMessageType` from `messageUtils.js`, restricted to the
`HumanMessage`/`AIMessage` instances the manager creates. -/
def getMessageType (m : Message) : String :=
  match m.type with
  | .human => "human"
  | .ai => "ai"

/-- The persisted shape of one message (one entry of the
`conversations.json` document). -/
structure SerializedMessage where
  type : String
  content : String
  timestamp : String
  tool_calls : Option (List String)
  tool_call_id : Option String
deriving DecidableEq, Repr

/-- `ConversationStore.serializeMessage`; `now` is the
`new Date().toISOString()` value.  `message.tool_calls || null` maps an
absent field to `null` and keeps any present array (arrays, even empty
ones, are truthy). -/
def serializeMessage (now : String) (m : Message) : SerializedMessage :=
  { type := getMessageType m, content := m.content, timestamp := now,
    tool_calls := m.tool_calls, tool_call_id := m.tool_call_id }

/-- `ConversationStore.deserializeMessage`: a `"human"` entry becomes a
fresh `HumanMessage` of the content only; an `"ai"` entry becomes a
fresh `AIMessage` of the content with `tool_calls` restored when the
stored field is truthy; any other entry is returned as the raw stored
data (`Sum.inr`). -/
def deserializeMessage (d : SerializedMessage) : Message ⊕ SerializedMessage :=
  if d.type = "human" then
    .inl { type := .human, content := d.content, tool_calls := none,
           tool_call_id := none }
  else if d.type = "ai" then
    .inl { type := .ai, content := d.content, tool_calls := d.tool_calls,
           tool_call_id := none }
  else
    .inr d

/-- One conversation record, generic in the message representation
(in-memory `Message`s before a save, `SerializedMessage`s in the file,
deserialized sums after a load). -/
structure Conversation (μ : Type) where
  id : String
  title : String
  messages : List μ
  createdAt : String
  updatedAt : String
deriving DecidableEq, Repr

/-- `ConversationStore.saveConversations`: serialize every message of
every conversation and rewrite the persisted document. -/
def saveConversations (now : String) (conversations : List (Conversation Message)) :
    List (Conversation SerializedMessage) :=
  conversations.map fun conv =>
    { conv with messages := conv.messages.map (serializeMessage now) }

/-- `ConversationStore.loadConversations`: deserialize every message of
every stored conversation. -/
def loadConversations (data : List (Conversation SerializedMessage)) :
    List (Conversation (Message ⊕ SerializedMessage)) :=
  data.map fun conv =>
    { conv with messages := conv.messages.map deserializeMessage }

/-- `this.maxHistorySize = 100`. -/
def maxHistorySize : Nat := 100

/-- The list manipulation of `ConversationStore.addConversation`:
`unshift` the new conversation, then `splice(maxHistorySize)` (drop
everything past the first `maxHistorySize` entries) when the list grew
beyond the limit. -/
def addConversation {μ : Type} (conversations : List (Conversation μ))
    (newConversation : Conversation μ) : List (Conversation μ) :=
  let l := newConversation :: conversations
  if l.length > maxHistorySize then l.take maxHistorySize else l

/-! ### Auth store (`src/store/authStore.js`) -/

/-- The persisted auth document.  `lastLoginTime` is an ISO time string
in the file; it is modelled by its epoch value in milliseconds, which is
what `new Date(...)` arithmetic computes with. -/
structure AuthData where
  isLoggedIn : Bool
  cookies : List String
  token : Option String
  userData : Option String
  lastLoginTime : Option ℤ
deriving DecidableEq, Repr

/-- `AuthStore.defaultAuthData`: the logged-out structure. -/
def defaultAuthData : AuthData :=
  { isLoggedIn := false, cookies := [], token := none, userData := none,
    lastLoginTime := none }

/-- `AuthStore.loadAuthData`: `data` is what `storage.load` produced
(the stored file, or the default when the file is missing/corrupt) and
`now` the current epoch milliseconds.  A stored login more than 24 hours
old is discarded in favour of the defaults.  The JavaScript computes
`hoursAgo = (now - lastLogin) / (1000*60*60)` in floating point and
compares with 24; over `ℚ` the comparison is exact and coincides with
the double computation on every whole-millisecond input of realistic
magnitude. -/
def loadAuthData (data : AuthData) (now : ℤ) : AuthData :=
  match data.lastLoginTime with
  | some lastLogin =>
    let hoursAgo : ℚ := ((now : ℚ) - (lastLogin : ℚ)) / (1000 * 60 * 60)
    if hoursAgo > 24 then defaultAuthData else data
  | none => data

/-! ### CLI feedback state machine (`CLIInterface`) -/

/-- The slice of `CLIInterface` state the feedback protocol touches:
the conversation manager's in-memory message list and the three feedback
fields initialized in the constructor. -/
structure CLIState where
  messages : List Message
  isWaitingForFeedback : Bool
  isWaitingForComment : Bool
  pendingRating : Option Nat
deriving DecidableEq, Repr

/-- Constructor state: empty history, no feedback in flight. -/
def initialCLIState : CLIState :=
  { messages := [], isWaitingForFeedback := false, isWaitingForComment := false,
    pendingRating := none }

/-- `new HumanMessage(userInput)`. -/
def humanMessage (content : String) : Message :=
  { type := .human, content := content, tool_calls := none, tool_call_id := none }

/-- `new AIMessage(text)`. -/
def aiMessage (content : String) : Message :=
  { type := .ai, content := content, tool_calls := none, tool_call_id := none }

/-- `String.prototype.includes`. -/
def strIncludes (s sub : String) : Bool :=
  decide (sub.data <:+: s.data)

/-- The fixed timeout error raised by `Application.processInput` when the
workflow invocation loses the 30-second race. -/
def timeoutErrorMessage : String := "Request timeout (30 seconds)"

/-- `Application.processInput`: race the workflow invocation against the
30-second timer.  `outcome = none` models the invocation still pending
when the timer fires. -/
def processInput (outcome : Option String) : Except String String :=
  match outcome with
  | some response => .ok response
  | none => .error timeoutErrorMessage

/-- Externally determined effects of one `processUserInput` call:
the result of `collectFeedbackWithContext` (submitted flag, or a thrown
error) for the comment step, and the result of
`processMessageWithThread` (response text, or a thrown error such as the
timeout) for the normal step. -/
structure ProcessEnv where
  commentResult : Except String Bool
  workflowResult : Except String String
deriving Repr

/-- Response text assembled in the comment step. `pendingRating` is in
1..5 whenever this step runs (`Option.getD 0` stands for the unreachable
`null` case). -/
def commentResponse (pendingRating : Option Nat) (comment : String)
    (submitted : Bool) : String :=
  let r := pendingRating.getD 0
  let base := getStarEmoji r ++ " Thank you for your " ++ toString r ++
    "-star rating!"
  let withComment :=
    if comment ≠ "" then base ++ "\nComment: \x22" ++ comment ++ "\x22" else base
  if submitted then withComment ++ "\n✅ Submitted to LangSmith for AI improvement."
  else withComment ++ "\n📝 Recorded locally."

/-- `CLIInterface.processUserInput` for a non-command input: push the
user message, then run the comment step, the rating step or the normal
workflow step; on a thrown error, pop the just-pushed message. -/
def processUserInput (st : CLIState) (userInput : String) (env : ProcessEnv) :
    CLIState :=
  let st1 := { st with messages := st.messages ++ [humanMessage userInput] }
  if st1.isWaitingForComment then
    match env.commentResult with
    | .ok submitted =>
      let comment := String.mk (jsTrim userInput.data)
      let responseMessage := commentResponse st1.pendingRating comment submitted
      { st1 with
        messages := st1.messages ++ [aiMessage responseMessage],
        isWaitingForComment := false, isWaitingForFeedback := false,
        pendingRating := none }
    | .error _ => { st1 with messages := st1.messages.dropLast }
  else if st1.isWaitingForFeedback then
    match parseUserFeedback userInput with
    | some (rating, _) =>
      if 1 ≤ rating ∧ rating ≤ 5 then
        { st1 with pendingRating := some rating, isWaitingForFeedback := false,
                   isWaitingForComment := true }
      else st1
    | none => st1
  else
    match env.workflowResult with
    | .ok response =>
      { st1 with
        messages := st1.messages ++ [aiMessage response],
        isWaitingForFeedback := strIncludes response "Rate this response" }
    | .error _ => { st1 with messages := st1.messages.dropLast }

/-- Fold a whole interactive session: process a sequence of non-command
inputs (each with its externally determined effects) from the
constructor state. -/
def runCLI (steps : List (String × ProcessEnv)) : CLIState :=
  steps.foldl (fun st p => processUserInput st p.1 p.2) initialCLIState

/-- The two-step feedback flag invariant: the two waiting flags are
never both set; a pending comment always has a stored rating in 1..5;
and outside the feedback flow no rating is pending. -/
def feedbackFlagsInv (st : CLIState) : Prop :=
  (st.isWaitingForFeedback = false ∨ st.isWaitingForComment = false) ∧
  (st.isWaitingForComment = true →
    ∃ r, st.pendingRating = some r ∧ 1 ≤ r ∧ r ≤ 5) ∧
  (st.isWaitingForFeedback = false → st.isWaitingForComment = false →
    st.pendingRating = none)

/-! ### Rendering helpers for the accepted feedback input forms -/

/-- The decimal digit character of a rating `r ≤ 9`. -/
def digitChar (r : Nat) : Char := Char.ofNat (48 + r)

/-- Form 1/4: a bare digit. -/
def formBare (r : Nat) : String := String.mk [digitChar r]

/-- Form 1: digit followed by `stars`. -/
def formStars (r : Nat) : String := String.mk [digitChar r] ++ " stars"

/-- Form 1: digit followed by `/5`. -/
def formSlash5 (r : Nat) : String := String.mk [digitChar r] ++ "/5"

/-- Form 2: `Rating: N`. -/
def formRating (r : Nat) : String := "Rating: " ++ String.mk [digitChar r]

/-- Form 2: `Score: N`. -/
def formScore (r : Nat) : String := "Score: " ++ String.mk [digitChar r]

/-- Form 3: `N - comment`. -/
def formDash (r : Nat) (comment : String) : String :=
  String.mk [digitChar r] ++ " - " ++ comment

/-- A comment a dash form can carry verbatim: non-empty, free of line
terminators (regex `.` must match every character) and not starting or
ending with whitespace (which trimming or the `\s*` around the dash
would strip). -/
def goodCommentB (c : String) : Bool :=
  !c.data.isEmpty && c.data.all dotCh &&
  (match c.data.head? with | some h => !jsSpace h | none => false) &&
  (match c.data.getLast? with | some h => !jsSpace h | none => false)

/-- The message shape produced by serializing and reloading an
in-memory message: content and role survive; `tool_calls` survives only
on AI messages; `tool_call_id` is never restored. -/
def reloadMessage (m : Message) : Message :=
  match m.type with
  | .human => { type := .human, content := m.content, tool_calls := none,
                tool_call_id := none }
  | .ai => { type := .ai, content := m.content, tool_calls := m.tool_calls,
             tool_call_id := none }

/-! ## Theorems -/

theorem mk_data (s : String) : String.mk s.data = s := rfl

theorem starSplits_all (p : Char → Bool) (l : List Char) (h : ∀ x ∈ l, p x = true) :
    ∃ rest, starSplits p l = (l, []) :: rest := by
  induction l with
  | nil => exact ⟨[], rfl⟩
  | cons a t ih =>
    obtain ⟨rest, hrest⟩ := ih (fun x hx => h x (List.mem_cons_of_mem a hx))
    refine ⟨rest.map (fun q => (a :: q.1, q.2)) ++ [([], a :: t)], ?_⟩
    simp [starSplits, h a (List.mem_cons_self a t), hrest]

theorem plusSplits_all (p : Char → Bool) (a : Char) (t : List Char)
    (h : ∀ x ∈ a :: t, p x = true) :
    ∃ rest, plusSplits p (a :: t) = (a :: t, []) :: rest := by
  obtain ⟨rest, hrest⟩ := starSplits_all p t (fun x hx => h x (List.mem_cons_of_mem a hx))
  exact ⟨rest.map (fun q => (a :: q.1, q.2)),
    by simp [plusSplits, h a (List.mem_cons_self a t), hrest]⟩

theorem dropWhile_eq_self_of_head (p : Char → Bool) (l : List Char)
    (h : ∀ x, l.head? = some x → p x = false) : l.dropWhile p = l := by
  cases l with
  | nil => rfl
  | cons a t => simp [List.dropWhile_cons, h a rfl]

theorem jsTrim_eq_self (l : List Char)
    (hhead : ∀ x, l.head? = some x → jsSpace x = false)
    (hlast : ∀ x, l.getLast? = some x → jsSpace x = false) : jsTrim l = l := by
  unfold jsTrim
  rw [dropWhile_eq_self_of_head _ _ hhead]
  rw [dropWhile_eq_self_of_head _ _ (fun x hx => hlast x (by rwa [List.head?_reverse] at hx))]
  exact List.reverse_reverse l

theorem fullMatch_pattern1_dash (d ch : Char) (ct : List Char) (hd : d.isDigit = true)
    (hh : jsSpace ch = false) (hall : ∀ x ∈ ch :: ct, dotCh x = true) :
    fullMatch pattern1 (d :: ' ' :: '-' :: ' ' :: ch :: ct) =
      some [(1, [d]), (2, ch :: ct)] := by
  obtain ⟨rest, hsplit⟩ := plusSplits_all dotCh ch ct hall
  simp +decide [fullMatch, pattern1, commentGrp, starsAlt, Rx.run, starSplits, hsplit, hh, hd,
    capOf]

theorem parseUserFeedback_dash (d : Char) (hd : d.isDigit = true)
    (hds : jsSpace d = false) (hr : 1 ≤ digitVal d ∧ digitVal d ≤ 5)
    (c : String) (hc : goodCommentB c = true) :
    parseUserFeedback (String.mk [d] ++ " - " ++ c) = some (digitVal d, c) := by
  simp only [goodCommentB, Bool.and_eq_true] at hc
  obtain ⟨⟨⟨hne, hall⟩, hhead⟩, hlast⟩ := hc
  obtain ⟨ch, ct, hcd⟩ : ∃ ch ct, c.data = ch :: ct := by
    rcases hcne : c.data with _ | ⟨ch, ct⟩
    · rw [hcne] at hne
      simp at hne
    · exact ⟨ch, ct, rfl⟩
  have hall' : ∀ x ∈ ch :: ct, dotCh x = true := by
    rw [← hcd]
    intro x hx
    exact (List.all_eq_true.mp hall) x hx
  have hh : jsSpace ch = false := by
    have : c.data.head? = some ch := by rw [hcd]; rfl
    rw [this] at hhead
    simpa using hhead
  have hlast' : ∀ x, c.data.getLast? = some x → jsSpace x = false := by
    intro x hx
    rw [hx] at hlast
    simpa using hlast
  have hdata : (String.mk [d] ++ " - " ++ c).data = d :: ' ' :: '-' :: ' ' :: c.data := by
    simp [String.data_append]
  have htrim : jsTrim (d :: ' ' :: '-' :: ' ' :: c.data) =
      d :: ' ' :: '-' :: ' ' :: c.data := by
    apply jsTrim_eq_self
    · intro x hx
      simp only [List.head?_cons, Option.some.injEq] at hx
      rw [← hx]
      exact hds
    · intro x hx
      apply hlast'
      rw [hcd] at hx ⊢
      rw [show d :: ' ' :: '-' :: ' ' :: ch :: ct = [d, ' ', '-', ' '] ++ ch :: ct from rfl,
        List.getLast?_append_cons] at hx
      exact hx
  unfold parseUserFeedback
  simp only [hdata, htrim]
  rw [hcd, fullMatch_pattern1_dash d ch ct hd hh hall']
  simp +decide [stepPattern, capOf, hr, ← hcd, mk_data]

theorem starSplits_consumed (p : Char → Bool) (l : List Char) (u r : List Char)
    (h : (u, r) ∈ starSplits p l) : u ++ r = l := by
  induction l generalizing u r with
  | nil =>
    simp [starSplits] at h
    simp [h.1, h.2]
  | cons a t ih =>
    rw [starSplits] at h
    by_cases hpa : p a
    · rw [if_pos hpa] at h
      rcases List.mem_append.mp h with h1 | h2
      · obtain ⟨⟨u', r'⟩, hmem, heq⟩ := List.mem_map.mp h1
        simp at heq
        rw [← heq.1, ← heq.2]
        simpa using ih u' r' hmem
      · simp at h2
        simp [h2.1, h2.2]
    · rw [if_neg hpa] at h
      simp at h
      simp [h.1, h.2]

theorem plusSplits_consumed (p : Char → Bool) (l : List Char) (u r : List Char)
    (h : (u, r) ∈ plusSplits p l) : u ++ r = l := by
  cases l with
  | nil => simp [plusSplits] at h
  | cons a t =>
    rw [plusSplits] at h
    by_cases hpa : p a
    · rw [if_pos hpa] at h
      obtain ⟨⟨u', r'⟩, hmem, heq⟩ := List.mem_map.mp h
      simp at heq
      rw [← heq.1, ← heq.2]
      simpa using starSplits_consumed p t u' r' hmem
    · rw [if_neg hpa] at h
      simp at h

theorem run_consumed (rx : Rx) (s u : List Char) (g : Caps) (r : List Char)
    (h : (u, g, r) ∈ rx.run s) : u ++ r = s := by
  induction rx generalizing s u g r with
  | eps =>
    simp [Rx.run] at h
    simp [h.1, h.2.2]
  | cls p =>
    cases s with
    | nil => simp [Rx.run] at h
    | cons a t =>
      rw [Rx.run] at h
      by_cases hpa : p a
      · rw [if_pos hpa] at h
        simp at h
        simp [h.1, h.2.2]
      · rw [if_neg hpa] at h
        simp at h
  | istr lit =>
    rw [Rx.run] at h
    split at h
    · simp at h
      rw [h.1, h.2.2]
      exact List.take_append_drop _ s
    · simp at h
  | seq a b iha ihb =>
    rw [Rx.run] at h
    obtain ⟨⟨u1, g1, r1⟩, hmem1, h2⟩ := List.mem_flatMap.mp h
    obtain ⟨⟨u2, g2, r2⟩, hmem2, heq⟩ := List.mem_map.mp h2
    simp at heq
    rw [← heq.1, ← heq.2.2, List.append_assoc]
    rw [ihb _ _ _ _ hmem2]
    exact iha _ _ _ _ hmem1
  | alt a b iha ihb =>
    rw [Rx.run] at h
    rcases List.mem_append.mp h with h1 | h2
    · exact iha _ _ _ _ h1
    · exact ihb _ _ _ _ h2
  | opt r' ih =>
    rw [Rx.run] at h
    rcases List.mem_append.mp h with h1 | h2
    · exact ih _ _ _ _ h1
    · simp at h2
      simp [h2.1, h2.2.2]
  | starCls p =>
    rw [Rx.run] at h
    obtain ⟨⟨u', r'⟩, hmem, heq⟩ := List.mem_map.mp h
    simp at heq
    rw [← heq.1, ← heq.2.2]
    exact starSplits_consumed p s u' r' hmem
  | plusCls p =>
    rw [Rx.run] at h
    obtain ⟨⟨u', r'⟩, hmem, heq⟩ := List.mem_map.mp h
    simp at heq
    rw [← heq.1, ← heq.2.2]
    exact plusSplits_consumed p s u' r' hmem
  | grp i r' ih =>
    rw [Rx.run] at h
    obtain ⟨⟨u', g', r''⟩, hmem, heq⟩ := List.mem_map.mp h
    simp at heq
    rw [← heq.1, ← heq.2.2]
    exact ih _ _ _ _ hmem

theorem run_capFree (rx : Rx) (hc : capFree rx = true) (s u : List Char) (g : Caps)
    (r : List Char) (h : (u, g, r) ∈ rx.run s) : g = [] := by
  induction rx generalizing s u g r with
  | eps => simp [Rx.run] at h; exact h.2.1
  | cls p =>
    cases s with
    | nil => simp [Rx.run] at h
    | cons a t =>
      rw [Rx.run] at h
      by_cases hpa : p a
      · rw [if_pos hpa] at h; simp at h; exact h.2.1
      · rw [if_neg hpa] at h; simp at h
  | istr lit =>
    rw [Rx.run] at h
    split at h
    · simp at h; exact h.2.1
    · simp at h
  | seq a b iha ihb =>
    rw [capFree, Bool.and_eq_true] at hc
    rw [Rx.run] at h
    obtain ⟨⟨u1, g1, r1⟩, hmem1, h2⟩ := List.mem_flatMap.mp h
    obtain ⟨⟨u2, g2, r2⟩, hmem2, heq⟩ := List.mem_map.mp h2
    simp at heq
    rw [← heq.2.1, iha hc.1 _ _ _ _ hmem1, ihb hc.2 _ _ _ _ hmem2]
    rfl
  | alt a b iha ihb =>
    rw [capFree, Bool.and_eq_true] at hc
    rw [Rx.run] at h
    rcases List.mem_append.mp h with h1 | h2
    · exact iha hc.1 _ _ _ _ h1
    · exact ihb hc.2 _ _ _ _ h2
  | opt r' ih =>
    rw [capFree] at hc
    rw [Rx.run] at h
    rcases List.mem_append.mp h with h1 | h2
    · exact ih hc _ _ _ _ h1
    · simp at h2; exact h2.2.1
  | starCls p =>
    rw [Rx.run] at h
    obtain ⟨⟨u', r'⟩, hmem, heq⟩ := List.mem_map.mp h
    simp at heq
    exact heq.2.1
  | plusCls p =>
    rw [Rx.run] at h
    obtain ⟨⟨u', r'⟩, hmem, heq⟩ := List.mem_map.mp h
    simp at heq
    exact heq.2.1
  | grp i r' ih => rw [capFree] at hc; cases hc

theorem run_grp_cls (i : Nat) (p : Char → Bool) (s u : List Char) (g : Caps)
    (r : List Char) (h : (u, g, r) ∈ (Rx.grp i (Rx.cls p)).run s) :
    ∃ ch cs, s = ch :: cs ∧ p ch = true ∧ u = [ch] ∧ g = [(i, [ch])] ∧ r = cs := by
  rw [Rx.run] at h
  obtain ⟨⟨u', g', r''⟩, hmem, heq⟩ := List.mem_map.mp h
  simp at heq
  cases s with
  | nil => simp [Rx.run] at hmem
  | cons a t =>
    rw [Rx.run] at hmem
    by_cases hpa : p a
    · rw [if_pos hpa] at hmem
      simp at hmem
      obtain ⟨hu', hg', hr''⟩ := hmem
      refine ⟨a, t, rfl, hpa, ?_, ?_, ?_⟩
      · rw [← heq.1, hu']
      · rw [← heq.2.1, hg', hu']
        rfl
      · rw [← heq.2.2, hr'']
    · rw [if_neg hpa] at hmem
      simp at hmem

theorem fullMatch_some (rx : Rx) (s : List Char) (g : Caps)
    (h : fullMatch rx s = some g) : ∃ u r, (u, g, r) ∈ rx.run s := by
  unfold fullMatch at h
  obtain ⟨⟨u, g', r⟩, hfind, heq⟩ := Option.map_eq_some'.mp h
  simp at heq
  subst heq
  exact ⟨u, r, List.mem_of_find?_eq_some hfind⟩

theorem run_seq_elim (a b : Rx) (s u : List Char) (g : Caps) (r : List Char)
    (h : (u, g, r) ∈ (Rx.seq a b).run s) :
    ∃ u1 g1 r1 u2 g2, (u1, g1, r1) ∈ a.run s ∧ (u2, g2, r) ∈ b.run r1 ∧
      u = u1 ++ u2 ∧ g = g1 ++ g2 := by
  rw [Rx.run] at h
  obtain ⟨⟨u1, g1, r1⟩, hmem1, h2⟩ := List.mem_flatMap.mp h
  obtain ⟨⟨u2, g2, r2⟩, hmem2, heq⟩ := List.mem_map.mp h2
  simp at heq
  obtain ⟨hu, hg, hr⟩ := heq
  subst hu hg hr
  exact ⟨u1, g1, r1, u2, g2, hmem1, hmem2, rfl, rfl⟩

theorem fullMatch_digit_head (tail : Rx) (s : List Char) (g : Caps)
    (h : fullMatch (Rx.seq (Rx.grp 1 (Rx.cls Char.isDigit)) tail) s = some g) :
    ∃ ch, capOf g 1 = some [ch] ∧ ch.isDigit = true ∧ ch ∈ s := by
  obtain ⟨u, r, hmem⟩ := fullMatch_some _ _ _ h
  obtain ⟨u1, g1, r1, u2, g2, hm1, hm2, hu, hg⟩ := run_seq_elim _ _ _ _ _ _ hmem
  obtain ⟨ch, cs, hs, hdig, hu1, hg1, hr1⟩ := run_grp_cls _ _ _ _ _ _ hm1
  refine ⟨ch, ?_, hdig, by rw [hs]; exact List.mem_cons_self _ _⟩
  rw [hg, hg1]
  simp [capOf]

theorem fullMatch_digit_4 (s : List Char) (g : Caps)
    (h : fullMatch pattern4 s = some g) :
    ∃ ch, capOf g 1 = some [ch] ∧ ch.isDigit = true ∧ ch ∈ s := by
  obtain ⟨u, r, hmem⟩ := fullMatch_some _ _ _ h
  obtain ⟨ch, cs, hs, hdig, hu, hg, hr⟩ := run_grp_cls _ _ _ _ _ _ hmem
  exact ⟨ch, by rw [hg]; simp [capOf], hdig, by rw [hs]; exact List.mem_cons_self _ _⟩

theorem fullMatch_digit_2 (s : List Char) (g : Caps)
    (h : fullMatch pattern2 s = some g) :
    ∃ ch, capOf g 1 = some [ch] ∧ ch.isDigit = true ∧ ch ∈ s := by
  obtain ⟨u, r, hmem⟩ := fullMatch_some _ _ _ h
  rw [pattern2] at hmem
  obtain ⟨uA, gA, rA, u2, g2, hmA, hm2, hu, hg⟩ := run_seq_elim _ _ _ _ _ _ hmem
  have hgA : gA = [] := run_capFree _ (by rfl) _ _ _ _ hmA
  obtain ⟨uB, gB, rB, u3, g3, hmB, hm3, hu2, hg2⟩ := run_seq_elim _ _ _ _ _ _ hm2
  have hgB : gB = [] := run_capFree _ (by rfl) _ _ _ _ hmB
  obtain ⟨uC, gC, rC, u4, g4, hmC, hm4, hu3, hg3⟩ := run_seq_elim _ _ _ _ _ _ hm3
  have hgC : gC = [] := run_capFree _ (by rfl) _ _ _ _ hmC
  obtain ⟨uD, gD, rD, u5, g5, hmD, hm5, hu4, hg4⟩ := run_seq_elim _ _ _ _ _ _ hm4
  obtain ⟨ch, cs, hsD, hdig, huD, hgD', hrD⟩ := run_grp_cls _ _ _ _ _ _ hmD
  refine ⟨ch, ?_, hdig, ?_⟩
  · rw [hg, hgA, hg2, hgB, hg3, hgC, hg4, hgD']
    simp [capOf]
  · have h1 : uA ++ rA = s := run_consumed _ _ _ _ _ hmA
    have h2 : uB ++ rB = rA := run_consumed _ _ _ _ _ hmB
    have h3 : uC ++ rC = rB := run_consumed _ _ _ _ _ hmC
    have hch : ch ∈ rC := by rw [hsD]; exact List.mem_cons_self _ _
    rw [← h1, ← h2, ← h3]
    simp [hch]

theorem searchMatch_some (rx : Rx) (s : List Char) (g : Caps)
    (h : searchMatch rx s = some g) :
    ∃ t, (∀ x ∈ t, x ∈ s) ∧ fullMatch rx t = some g := by
  induction s with
  | nil => exact ⟨[], by simp, h⟩
  | cons a cs ih =>
    rw [searchMatch] at h
    cases hf : fullMatch rx (a :: cs) with
    | some g' =>
      rw [hf] at h
      simp [Option.orElse] at h
      exact ⟨a :: cs, fun x hx => hx, by rw [hf, h]⟩
    | none =>
      rw [hf] at h
      simp [Option.orElse] at h
      obtain ⟨t, hsub, hfm⟩ := ih h
      exact ⟨t, fun x hx => List.mem_cons_of_mem a (hsub x hx), hfm⟩

theorem jsTrim_mem (l : List Char) (x : Char) (hx : x ∈ jsTrim l) : x ∈ l := by
  unfold jsTrim at hx
  rw [List.mem_reverse] at hx
  have hx1 : x ∈ (l.dropWhile jsSpace).reverse := (List.dropWhile_sublist _).subset hx
  rw [List.mem_reverse] at hx1
  exact (List.dropWhile_sublist _).subset hx1

theorem stepPattern_skip (g : Caps) (next : Option (Nat × String)) (ch : Char)
    (hcap : capOf g 1 = some [ch])
    (hbad : ¬(1 ≤ digitVal ch ∧ digitVal ch ≤ 5)) :
    stepPattern (some g) next = next := by
  simp only [stepPattern]
  rw [hcap]
  simp [hbad]

/-- C2: for every input string that contains no digit, or whose digits
are all outside the range 1–5, `parseUserFeedback` answers the parse
failure sentinel (`none`, the source's `null`) and never a clamped,
rounded or guessed rating.  Every pattern of the cascade captures its
rating from a digit character of the input, so with no in-range digit
available every pattern falls through. -/
theorem parseUserFeedback_invalid (s : String)
    (hdig : ∀ ch ∈ s.data, ch.isDigit = true →
      ¬(1 ≤ digitVal ch ∧ digitVal ch ≤ 5)) :
    parseUserFeedback s = none := by
  have hdig' : ∀ ch ∈ jsTrim s.data, ch.isDigit = true →
      ¬(1 ≤ digitVal ch ∧ digitVal ch ≤ 5) :=
    fun ch hch => hdig ch (jsTrim_mem _ _ hch)
  have hstep1 : ∀ next, stepPattern (fullMatch pattern1 (jsTrim s.data)) next = next := by
    intro next
    cases hf : fullMatch pattern1 (jsTrim s.data) with
    | none => rfl
    | some g =>
      obtain ⟨ch, hcap, hd, hmem⟩ := fullMatch_digit_head _ _ _ (by rwa [pattern1] at hf)
      exact stepPattern_skip _ _ _ hcap (hdig' ch hmem hd)
  have hstep2 : ∀ next, stepPattern (searchMatch pattern2 (jsTrim s.data)) next = next := by
    intro next
    cases hf : searchMatch pattern2 (jsTrim s.data) with
    | none => rfl
    | some g =>
      obtain ⟨t, hsub, hfm⟩ := searchMatch_some _ _ _ hf
      obtain ⟨ch, hcap, hd, hmem⟩ := fullMatch_digit_2 _ _ hfm
      exact stepPattern_skip _ _ _ hcap (hdig' ch (hsub ch hmem) hd)
  have hstep3 : ∀ next, stepPattern (fullMatch pattern3 (jsTrim s.data)) next = next := by
    intro next
    cases hf : fullMatch pattern3 (jsTrim s.data) with
    | none => rfl
    | some g =>
      obtain ⟨ch, hcap, hd, hmem⟩ := fullMatch_digit_head _ _ _ (by rwa [pattern3] at hf)
      exact stepPattern_skip _ _ _ hcap (hdig' ch hmem hd)
  have hstep4 : stepPattern (fullMatch pattern4 (jsTrim s.data)) none = none := by
    cases hf : fullMatch pattern4 (jsTrim s.data) with
    | none => rfl
    | some g =>
      obtain ⟨ch, hcap, hd, hmem⟩ := fullMatch_digit_4 _ _ hf
      exact stepPattern_skip _ _ _ hcap (hdig' ch hmem hd)
  unfold parseUserFeedback
  simp only [hstep1, hstep2, hstep3, hstep4]

/-- C1: for every rating `r` with `1 ≤ r ≤ 5` expressed in any of the
four accepted textual forms — bare digit, digit followed by `stars` or
`/5`, `Rating: N` / `Score: N`, or `N - comment` — `parseUserFeedback`
answers exactly `{rating := r, comment}`, where the comment is the
trailing text after the dash and the empty string when no dash-comment
is present. -/
theorem parseUserFeedback_accepted_forms (r : Nat) (h1 : 1 ≤ r) (h5 : r ≤ 5)
    (c : String) (hc : goodCommentB c = true) :
    parseUserFeedback (formBare r) = some (r, "") ∧
    parseUserFeedback (formStars r) = some (r, "") ∧
    parseUserFeedback (formSlash5 r) = some (r, "") ∧
    parseUserFeedback (formRating r) = some (r, "") ∧
    parseUserFeedback (formScore r) = some (r, "") ∧
    parseUserFeedback (formDash r c) = some (r, c) := by
  have hdash : parseUserFeedback (formDash r c) = some (r, c) := by
    interval_cases r
    · exact parseUserFeedback_dash '1' (by decide) (by decide) (by decide) c hc
    · exact parseUserFeedback_dash '2' (by decide) (by decide) (by decide) c hc
    · exact parseUserFeedback_dash '3' (by decide) (by decide) (by decide) c hc
    · exact parseUserFeedback_dash '4' (by decide) (by decide) (by decide) c hc
    · exact parseUserFeedback_dash '5' (by decide) (by decide) (by decide) c hc
  refine ⟨?_, ?_, ?_, ?_, ?_, hdash⟩ <;> interval_cases r <;> decide

/-- Witness for C1 at the spec's example: `"4 - could be more detailed"`
parses to rating 4 with comment `"could be more detailed"`. -/
theorem parseUserFeedback_accepted_forms_witness :
    (1 ≤ 4 ∧ 4 ≤ 5) ∧ goodCommentB "could be more detailed" = true ∧
    formDash 4 "could be more detailed" = "4 - could be more detailed" ∧
    parseUserFeedback "4 - could be more detailed" =
      some (4, "could be more detailed") := by
  refine ⟨by decide, by decide, by decide, ?_⟩
  have h := (parseUserFeedback_accepted_forms 4 (by decide) (by decide)
    "could be more detailed" (by decide)).2.2.2.2.2
  rwa [show formDash 4 "could be more detailed" = "4 - could be more detailed"
    from by decide] at h

/-- Witness for C2 at the spec's example input `"banana"`. -/
theorem parseUserFeedback_invalid_witness :
    (∀ ch ∈ ("banana" : String).data, ch.isDigit = true →
      ¬(1 ≤ digitVal ch ∧ digitVal ch ≤ 5)) ∧
    parseUserFeedback "banana" = none :=
  ⟨by decide, parseUserFeedback_invalid "banana" (by decide)⟩

/-- C7: for every integer rating `r` in 1..5, the normalized score
computed by `convertStarRatingToScore` equals `(r - 1) / 4` exactly,
realizing the mapping 1 ↦ 0, 2 ↦ 0.25, 3 ↦ 0.5, 4 ↦ 0.75, 5 ↦ 1. -/
theorem convertStarRatingToScore_exact (r : ℕ) (h1 : 1 ≤ r) (h5 : r ≤ 5) :
    convertStarRatingToScore (r : ℚ) = ((r : ℚ) - 1) / 4 ∧
    (r = 1 → convertStarRatingToScore (r : ℚ) = 0) ∧
    (r = 2 → convertStarRatingToScore (r : ℚ) = 0.25) ∧
    (r = 3 → convertStarRatingToScore (r : ℚ) = 0.5) ∧
    (r = 4 → convertStarRatingToScore (r : ℚ) = 0.75) ∧
    (r = 5 → convertStarRatingToScore (r : ℚ) = 1) := by
  refine ⟨rfl, ?_, ?_, ?_, ?_, ?_⟩ <;>
    rintro rfl <;> norm_num [convertStarRatingToScore]

/-- Witness for C7 at the spec's example rating 4: the normalized score
is exactly 0.75. -/
theorem convertStarRatingToScore_exact_witness :
    convertStarRatingToScore ((4 : ℕ) : ℚ) = 0.75 :=
  (convertStarRatingToScore_exact 4 (by norm_num) (by norm_num)).2.2.2.2.1 rfl

/-- C6: a stored auth file whose `lastLoginTime` lies more than 24 hours
(in milliseconds) before the load time yields the default logged-out
structure; a `lastLoginTime` within 24 hours yields the stored data. -/
theorem loadAuthData_expiry (data : AuthData) (now lastLogin : ℤ)
    (hll : data.lastLoginTime = some lastLogin) :
    (now - lastLogin > 24 * (1000 * 60 * 60) →
      loadAuthData data now = defaultAuthData) ∧
    (now - lastLogin ≤ 24 * (1000 * 60 * 60) →
      loadAuthData data now = data) := by
  have hred : loadAuthData data now =
      if ((now : ℚ) - (lastLogin : ℚ)) / (1000 * 60 * 60) > 24 then defaultAuthData
      else data := by
    unfold loadAuthData
    rw [hll]
  have hiff : (((now : ℚ) - (lastLogin : ℚ)) / (1000 * 60 * 60) > 24) ↔
      ((24 * (1000 * 60 * 60) : ℤ) < now - lastLogin) := by
    rw [gt_iff_lt, lt_div_iff₀ (by norm_num)]
    exact_mod_cast Iff.rfl
  constructor
  · intro h
    rw [hred, if_pos (hiff.mpr (by linarith))]
  · intro h
    rw [hred, if_neg]
    rw [hiff]
    omega

/-- Witness for C6: a login 30 hours in the past is reset to the default
logged-out structure. -/
theorem loadAuthData_expiry_witness :
    loadAuthData
      { isLoggedIn := true, cookies := ["session"], token := some "tok",
        userData := some "user", lastLoginTime := some 0 }
      (30 * (1000 * 60 * 60)) = defaultAuthData :=
  (loadAuthData_expiry _ _ 0 rfl).1 (by norm_num)

/-- C5: adding a conversation to a store already holding
`maxHistorySize` (100) conversations keeps exactly 100, newest first:
the new conversation lands at the front and the last (oldest) stored
conversation is dropped. -/
theorem addConversation_at_capacity {μ : Type} (conversations : List (Conversation μ))
    (c : Conversation μ) (hfull : conversations.length = maxHistorySize) :
    addConversation conversations c = c :: conversations.dropLast ∧
    (addConversation conversations c).length = maxHistorySize ∧
    (addConversation conversations c).head? = some c := by
  have hstep : addConversation conversations c = c :: conversations.dropLast := by
    unfold addConversation
    rw [if_pos (by simp [hfull, maxHistorySize])]
    simp only [List.take_succ_cons, maxHistorySize]
    rw [List.dropLast_eq_take, hfull]
    rfl
  refine ⟨hstep, ?_, by rw [hstep]; rfl⟩
  rw [hstep]
  simp [List.length_dropLast, hfull, maxHistorySize]

/-- Witness for C5 on a concrete store of 100 conversations. -/
theorem addConversation_at_capacity_witness :
    (let convA : Conversation Unit :=
      { id := "0", title := "old", messages := [], createdAt := "t", updatedAt := "t" }
     let convB : Conversation Unit :=
      { id := "1", title := "new", messages := [], createdAt := "t", updatedAt := "t" }
     let stored := List.replicate 100 convA
     addConversation stored convB = convB :: stored.dropLast ∧
     (addConversation stored convB).length = maxHistorySize ∧
     (addConversation stored convB).head? = some convB) :=
  addConversation_at_capacity _ _ (by simp [maxHistorySize])

/-- C3 counterexample: saving and reloading a conversation whose single
AI message carries `tool_call_id = "call_1"` loses the `tool_call_id`
(the stored field is never read back by `deserializeMessage`), so
tool-call metadata does not round-trip unchanged. -/
theorem conversation_roundtrip_tool_call_id_lost :
    (let original : Conversation Message :=
      { id := "1", title := "t", createdAt := "t0", updatedAt := "t0",
        messages := [{ type := .ai, content := "ok", tool_calls := some ["tc"],
                       tool_call_id := some "call_1" }] }
     (loadConversations (saveConversations "t1" [original])).map
        (fun conv => conv.messages.map
          (fun m => match m with
                    | .inl m' => m'.tool_call_id
                    | .inr d => d.tool_call_id)) = [[none]] ∧
     original.messages.map (fun m => m.tool_call_id) = [some "call_1"]) := by
  exact ⟨rfl, rfl⟩

/-- C3 amended: saving then reloading restores every message, in order,
as `reloadMessage m`: same `content` and role (`type`), `tool_calls`
preserved on AI messages (but dropped from human messages), and
`tool_call_id` always reset to `none` rather than round-tripped. -/
theorem conversation_roundtrip (now : String)
    (conversations : List (Conversation Message)) :
    loadConversations (saveConversations now conversations) =
      conversations.map (fun conv =>
        { conv with messages := conv.messages.map (fun m => Sum.inl (reloadMessage m)) }) := by
  unfold loadConversations saveConversations
  rw [List.map_map]
  refine List.map_congr_left (fun conv _ => ?_)
  simp only [Function.comp_apply, List.map_map]
  congr 1
  refine List.map_congr_left (fun m _ => ?_)
  cases htype : m.type <;>
    simp [Function.comp_apply, serializeMessage, deserializeMessage, getMessageType,
      reloadMessage, htype]

/-- C8: the run identifier used for feedback is resolved with this exact
precedence: a truthy explicitly supplied `runId` wins; else a trace
context id that is a valid UUID; else a truthy thread id that is itself
a valid UUID is used directly; in every remaining case (no trace
context or invalid trace id, and no thread id or an invalid one) a
freshly generated UUID is used. -/
theorem runId_resolution_precedence (explicitRunId traceCtx threadId : Option String)
    (fresh : String) :
    (∀ r, truthyStr explicitRunId = some r →
      resolveRunId explicitRunId traceCtx threadId fresh = r) ∧
    (truthyStr explicitRunId = none →
      ∀ id, traceCtx = some id → isValidUUID id = true →
        resolveRunId explicitRunId traceCtx threadId fresh = id) ∧
    (truthyStr explicitRunId = none → getCurrentRunId traceCtx = none →
      ∀ tid, truthyStr threadId = some tid → isValidUUID tid = true →
        resolveRunId explicitRunId traceCtx threadId fresh = tid) ∧
    (truthyStr explicitRunId = none → getCurrentRunId traceCtx = none →
      (∀ tid, truthyStr threadId = some tid → isValidUUID tid = false) →
        resolveRunId explicitRunId traceCtx threadId fresh = fresh) := by
  refine ⟨?_, ?_, ?_, ?_⟩
  · intro r hr
    simp [resolveRunId, hr]
  · intro hex id hctx huuid
    simp [resolveRunId, hex, getRunIdFromContext, getCurrentRunId, hctx, huuid]
  · intro hex hctx tid htid huuid
    simp [resolveRunId, hex, getRunIdFromContext, hctx, htid, huuid]
  · intro hex hctx hthread
    cases htid : truthyStr threadId with
    | none => simp [resolveRunId, hex, getRunIdFromContext, hctx, htid]
    | some tid =>
      simp [resolveRunId, hex, getRunIdFromContext, hctx, htid, hthread tid htid]

/-- Witness for C8: with no explicit id and an invalid trace id, a
thread id that is a valid UUID is used directly. -/
theorem runId_resolution_precedence_witness :
    truthyStr none = (none : Option String) ∧
    getCurrentRunId (some "not-a-uuid") = none ∧
    truthyStr (some "1b671a64-40d5-491e-99b0-da01ff1f3341") =
      some "1b671a64-40d5-491e-99b0-da01ff1f3341" ∧
    isValidUUID "1b671a64-40d5-491e-99b0-da01ff1f3341" = true ∧
    resolveRunId none (some "not-a-uuid")
      (some "1b671a64-40d5-491e-99b0-da01ff1f3341") "fresh-uuid" =
      "1b671a64-40d5-491e-99b0-da01ff1f3341" :=
  ⟨by decide, by decide, by decide, by decide,
    (runId_resolution_precedence none (some "not-a-uuid")
        (some "1b671a64-40d5-491e-99b0-da01ff1f3341") "fresh-uuid").2.2.1
      (by decide) (by decide) _ (by decide) (by decide)⟩

/-- C9: when a normal (non-command) input is processed and the workflow
invocation throws — in particular the fixed 30-second timeout error —
the user message pushed at the start of processing is popped again, so
the in-memory history after the error equals the history before the
input. -/
theorem processUserInput_error_rollback (st : CLIState) (userInput e : String)
    (env : ProcessEnv) (hFeedback : st.isWaitingForFeedback = false)
    (hComment : st.isWaitingForComment = false)
    (herr : env.workflowResult = .error e) :
    (processUserInput st userInput env).messages = st.messages := by
  unfold processUserInput
  simp [hFeedback, hComment, herr, List.dropLast_concat]

/-- Witness for C9: a workflow timeout on a fresh session leaves the
(empty) history unchanged. -/
theorem processUserInput_error_rollback_witness :
    (processUserInput initialCLIState "what is 2+2"
      { commentResult := .ok false,
        workflowResult := .error timeoutErrorMessage }).messages =
      initialCLIState.messages :=
  processUserInput_error_rollback initialCLIState "what is 2+2"
    timeoutErrorMessage _ rfl rfl rfl

/-- Helper for C10: one `processUserInput` call preserves the feedback
flag invariant. -/
theorem processUserInput_preserves_inv (st : CLIState) (input : String)
    (env : ProcessEnv) (hinv : feedbackFlagsInv st) :
    feedbackFlagsInv (processUserInput st input env) := by
  obtain ⟨hboth, hcom, hnone⟩ := hinv
  unfold processUserInput
  by_cases hC : st.isWaitingForComment = true
  · have hFfalse : st.isWaitingForFeedback = false := by
      rcases hboth with h | h
      · exact h
      · rw [hC] at h
        cases h
    simp only [hC, if_true]
    cases env.commentResult with
    | ok submitted =>
      exact ⟨Or.inr rfl, fun h => absurd h (by simp), fun _ _ => rfl⟩
    | error e =>
      exact ⟨Or.inl hFfalse, fun _ => hcom hC, fun _ h2 => absurd h2 (by simp)⟩
  · have hC' : st.isWaitingForComment = false := by
      simpa using hC
    simp only [hC', if_false, Bool.false_eq_true]
    by_cases hF : st.isWaitingForFeedback = true
    · simp only [hF, if_true]
      cases parseUserFeedback input with
      | none =>
        exact ⟨Or.inr rfl, fun h => absurd h (by simp),
          fun h1 _ => absurd h1 (by simp)⟩
      | some p =>
        obtain ⟨rating, comment⟩ := p
        by_cases hr : 1 ≤ rating ∧ rating ≤ 5
        · simp only [hr, if_pos]
          exact ⟨Or.inl rfl, fun _ => ⟨rating, rfl, hr.1, hr.2⟩,
            fun _ h2 => absurd h2 (by simp)⟩
        · simp only [hr, if_false]
          exact ⟨Or.inr rfl, fun h => absurd h (by simp),
            fun h1 _ => absurd h1 (by simp)⟩
    · have hF' : st.isWaitingForFeedback = false := by
        simpa using hF
      simp only [hF', if_false, Bool.false_eq_true]
      cases env.workflowResult with
      | ok response =>
        exact ⟨Or.inr rfl, fun h => absurd h (by simp),
          fun _ _ => hnone hF' hC'⟩
      | error e =>
        exact ⟨Or.inl rfl, fun h => absurd h (by simp),
          fun _ _ => hnone hF' hC'⟩

/-- C10: after any sequence of processed user inputs starting from the
constructor state, the CLI feedback flags form a consistent two-step
state machine: the two waiting flags are never both set, a pending
comment always has a stored rating in 1..5, and with neither flag set
no rating is pending. -/
theorem cli_feedback_flags_consistent (steps : List (String × ProcessEnv)) :
    feedbackFlagsInv (runCLI steps) := by
  have hgen : ∀ (l : List (String × ProcessEnv)) (st : CLIState),
      feedbackFlagsInv st →
      feedbackFlagsInv (l.foldl (fun st p => processUserInput st p.1 p.2) st) := by
    intro l
    induction l with
    | nil => exact fun st h => h
    | cons p t ih =>
      intro st h
      exact ih _ (processUserInput_preserves_inv st p.1 p.2 h)
  exact hgen steps initialCLIState ⟨Or.inl rfl, by simp [initialCLIState], fun _ _ => rfl⟩

/-- C4: for a valid rating and a resolved (non-empty) run id, a
configured client whose remote write succeeds with a non-empty record
id yields `submitted = true` and that non-empty remote id; an
unconfigured client (with the re-initialization attempt also yielding
no client) or a failing remote write yields `submitted = false` and a
non-empty locally generated id; in all three cases the confirmation
message is non-empty and contains the star count. -/
theorem collectFeedback_submission (env : FeedbackEnv) (starRating : ℤ)
    (comment runId : String) (hrating : 1 ≤ starRating ∧ starRating ≤ 5)
    (hrun : runId ≠ "") :
    (∀ fid, env.client = some (.success fid) → fid ≠ "" →
      ∃ res, collectFeedback env true starRating comment runId = .ok res ∧
        res.submitted = true ∧ res.feedbackId = some fid ∧ fid ≠ "" ∧
        res.message ≠ "" ∧ (toString starRating).data <:+: res.message.data) ∧
    (env.client = none → env.reinitClient = none →
      ∃ res, collectFeedback env true starRating comment runId = .ok res ∧
        res.submitted = false ∧
        res.localId = some (localFeedbackId env.localIdSuffix) ∧
        localFeedbackId env.localIdSuffix ≠ "" ∧
        res.message ≠ "" ∧ (toString starRating).data <:+: res.message.data) ∧
    (∀ e, env.client = some (.failure e) →
      ∃ res, collectFeedback env true starRating comment runId = .ok res ∧
        res.submitted = false ∧
        res.localId = some (localFeedbackId env.localIdSuffix) ∧
        localFeedbackId env.localIdSuffix ≠ "" ∧
        res.message ≠ "" ∧ (toString starRating).data <:+: res.message.data) := by
  have hrun' : (runId == "") = false := by
    simpa using hrun
  have hval : ¬¬(1 ≤ starRating ∧ starRating ≤ 5) := not_not_intro hrating
  have hlocal : localFeedbackId env.localIdSuffix ≠ "" := by
    intro habs
    have hd := congrArg String.data habs
    rw [localFeedbackId, String.data_append] at hd
    rcases List.append_eq_nil.mp hd with ⟨hd1, -⟩
    exact absurd hd1 (by decide)
  refine ⟨?_, ?_, ?_⟩
  · intro fid hclient hfid
    rw [collectFeedback.eq_def, if_neg hval, hclient, hrun']
    refine ⟨_, rfl, rfl, rfl, hfid, ?_, ?_⟩
    · intro habs
      have hd := congrArg String.data habs
      simp only [String.data_append] at hd
      rcases List.append_eq_nil.mp hd with ⟨hd1, -⟩
      rcases List.append_eq_nil.mp hd1 with ⟨hd2, -⟩
      exact absurd hd2 (by decide)
    · exact ⟨"✅ Thank you! Your ".data,
        "-star rating has been submitted to improve our AI system.".data,
        by simp [String.data_append]⟩
  · intro hclient hreinit
    have heq : collectFeedback env true starRating comment runId =
        .ok { success := true, submitted := false, runId := none,
              feedbackId := none,
              localId := some (localFeedbackId env.localIdSuffix),
              errMsg := none,
              feedback := { starRating := starRating,
                            score := convertStarRatingToScore (starRating : ℚ),
                            comment := comment, key := "user_rating",
                            runId := runId },
              message := "📝 Thank you! Your " ++ toString starRating ++
                "-star rating has been recorded locally (LangSmith not initialized)." } := by
      rw [collectFeedback.eq_def, if_neg hval, hclient, hreinit]
      simp
    rw [heq]
    refine ⟨_, rfl, rfl, rfl, hlocal, ?_, ?_⟩
    · intro habs
      have hd := congrArg String.data habs
      simp only [String.data_append] at hd
      rcases List.append_eq_nil.mp hd with ⟨hd1, -⟩
      rcases List.append_eq_nil.mp hd1 with ⟨hd2, -⟩
      exact absurd hd2 (by decide)
    · exact ⟨"📝 Thank you! Your ".data,
        "-star rating has been recorded locally (LangSmith not initialized).".data,
        by simp [String.data_append]⟩
  · intro e hclient
    rw [collectFeedback.eq_def, if_neg hval, hclient, hrun']
    refine ⟨_, rfl, rfl, rfl, hlocal, ?_, ?_⟩
    · intro habs
      have hd := congrArg String.data habs
      simp only [String.data_append] at hd
      rcases List.append_eq_nil.mp hd with ⟨hd1, -⟩
      rcases List.append_eq_nil.mp hd1 with ⟨hd2, -⟩
      rcases List.append_eq_nil.mp hd2 with ⟨hd3, -⟩
      rcases List.append_eq_nil.mp hd3 with ⟨hd4, -⟩
      exact absurd hd4 (by decide)
    · refine ⟨"📝 Your ".data,
        "-star rating has been recorded locally (LangSmith submission failed: ".data ++
          e.data ++ ").".data,
        by simp [String.data_append]⟩

/-- Witness for C4 with a reachable remote client: `submitted = true`
and the non-empty remote record id are returned, and the message
mentions the star count. -/
theorem collectFeedback_submission_witness :
    ∃ res,
      collectFeedback
        { client := some (.success "fb-123"), reinitClient := none,
          retryRunId := "r", localIdSuffix := "170_abc" }
        true 4 "nice answer" "1b671a64-40d5-491e-99b0-da01ff1f3341" = .ok res ∧
      res.submitted = true ∧ res.feedbackId = some "fb-123" ∧ "fb-123" ≠ "" ∧
      res.message ≠ "" ∧ (toString (4 : ℤ)).data <:+: res.message.data :=
  (collectFeedback_submission
      { client := some (.success "fb-123"), reinitClient := none,
        retryRunId := "r", localIdSuffix := "170_abc" }
      4 "nice answer" "1b671a64-40d5-491e-99b0-da01ff1f3341"
      (by norm_num) (by decide)).1 "fb-123" rfl (by decide)

end LangchainDemo

